import Mathlib

/-!
# Verification of the MasterEverything guided-session state machine

Shallow embedding of the session state machine and oracle-facing services of
the MasterEverything application (`src/App.tsx`, `src/services/geminiService.ts`,
`src/types.ts`).

Modelling conventions:
* React `useState` hooks of the `App` component are collected into one
  `Session` record; each event handler becomes a pure function
  `Session → Session`.  A batch of `set*` calls performed synchronously by a
  handler is modelled as one atomic record update.
* The two asynchronous oracle calls (`analyzeSituation`, `verifyStep`) are
  modelled over an explicit outcome type describing what the environment did
  (transport rejection, unparseable response text, or a parsed JSON value);
  a call that throws is an `Except.error`, a call that fulfills is `Except.ok`.
* `await`-spanning handlers are split into a `...Start` function (the code run
  before the `await`) and a `...Resolve` function (the code run after the
  promise settles).  When the awaited promise rejects, the remaining statements
  of the handler do not run, so the `Resolve` function returns the state
  unchanged on the error branch.
* Fire-and-forget side effects (`playInstructionAudio`, `console.error`) do not
  touch session state and are not modelled.
* TypeScript numbers holding step indices are modelled as `Nat` (they are only
  ever set to `0` or incremented); note `idx < len - 1` over `Nat` agrees with
  the JavaScript comparison for every `idx ≥ 0`, including `len = 0` where
  JavaScript compares against `-1`.  Timer arithmetic is modelled over `ℚ`.
-/

/-- `AppMode` from `src/types.ts`. -/
inductive AppMode
  | FIRST_AID
  | ROBOTICS
  | MECHANICAL
  | CODING
  | TRADES
  | GENERAL
  deriving DecidableEq, Repr

/-- `AppState` from `src/types.ts`: the phase of the session state machine. -/
inductive AppState
  | HOME
  | INITIAL_CAPTURE
  | CAPTURE_COMPLETE
  | VOICE_DESCRIPTION
  | ANALYZING
  | ANALYSIS_COMPLETE
  | PREPARING_INSTRUCTIONS
  | GUIDANCE
  | STEP_VALIDATION
  | ESCALATION
  | COMPLETED
  deriving DecidableEq, Repr

/-- `Material` from `src/types.ts`. -/
structure Material where
  name : String
  alternative : Option String
  deriving DecidableEq, Repr

/-- `GuidanceStep` from `src/types.ts`.  The `arOverlayType` union of string
literals is modelled as `String`. -/
structure GuidanceStep where
  id : Int
  title : String
  instruction : String
  duration : Option String
  materials : Option (List Material)
  warnings : Option (List String)
  checkpoints : Option (List String)
  audioPrompt : String
  arOverlayType : String
  deriving DecidableEq, Repr

/-- `AnalysisResult` from `src/types.ts`.  `confidence : number` is modelled as
`Int`; the `severity` union of string literals as `String`. -/
structure AnalysisResult where
  category : String
  confidence : Int
  reasoning : String
  severity : String
  uncertainties : Option (List String)
  isSafeToProceed : Bool
  steps : List GuidanceStep
  deriving DecidableEq, Repr

/-- The shape of the value returned by `verifyStep`
(`{ success: boolean; feedback: string }`). -/
structure VerificationFeedback where
  success : Bool
  feedback : String
  deriving DecidableEq, Repr

/-- A JSON value, used to model the runtime value produced by `JSON.parse` of
the analysis oracle's response text.  The TypeScript `as AnalysisResult` cast
performs no runtime check, so the value that flows onward is exactly the parsed
JSON value, whatever its shape. -/
inductive Json
  | null
  | bool (b : Bool)
  | num (n : Int)
  | str (s : String)
  | arr (elems : List Json)
  | obj (fields : List (String × Json))

/-- Field lookup on a JSON value (`undefined` for a missing field or a
non-object is `none`). -/
def Json.getField : Json → String → Option Json
  | Json.obj fields, k => fields.lookup k
  | _, _ => none

/-- What the environment did during one `analyzeSituation` call
(`src/services/geminiService.ts`, lines 8–80):
* `transportError` — `ai.models.generateContent` rejected (this `await` is
  outside the `try` block);
* `noText` — the call fulfilled but `response.text` was undefined or empty, so
  `'{}'` is parsed;
* `malformed t` — `response.text` was `t` and `JSON.parse t` threw;
* `parsed v` — `JSON.parse` of the response text produced the value `v`. -/
inductive AnalysisOracleOutcome
  | transportError
  | noText
  | malformed (t : String)
  | parsed (v : Json)

/-- `analyzeSituation` from `src/services/geminiService.ts`, lines 8–80, as a
function of the oracle outcome.  The `try` block wraps only `JSON.parse`, and
the `as AnalysisResult` cast performs no runtime check: any parsed JSON value
is returned as-is. -/
def analyzeSituation : AnalysisOracleOutcome → Except String Json
  | AnalysisOracleOutcome.transportError => Except.error "transport error"
  | AnalysisOracleOutcome.noText => Except.ok (Json.obj [])
  | AnalysisOracleOutcome.malformed _ => Except.error "Failed to parse AI response"
  | AnalysisOracleOutcome.parsed v => Except.ok v

/-- What the environment did during one `verifyStep` call
(`src/services/geminiService.ts`, lines 82–104):
* `transportError` — `ai.models.generateContent` rejected (this `await` is
  outside the `try` block);
* `malformed t` — the call fulfilled but `JSON.parse` of the response text
  threw;
* `parsed b f` — `JSON.parse` succeeded, yielding `{success: b, feedback: f}`. -/
inductive VerifyOracleOutcome
  | transportError
  | malformed (t : String)
  | parsed (success : Bool) (feedback : String)

/-- `verifyStep` from `src/services/geminiService.ts`, lines 82–104, as a
function of the oracle outcome.  Only the `JSON.parse` call is inside the
`try`, so only a parse failure produces the fallback feedback; a transport
rejection propagates to the caller. -/
def verifyStep : VerifyOracleOutcome → Except Unit VerificationFeedback
  | VerifyOracleOutcome.transportError => Except.error ()
  | VerifyOracleOutcome.malformed _ =>
      Except.ok { success := true, feedback := "Unable to verify, but proceeding safely." }
  | VerifyOracleOutcome.parsed b f => Except.ok { success := b, feedback := f }

/-- The `useState` hooks of the `App` component (`src/App.tsx`, lines 8–23),
collected into one record.  `longPressTimer` is never used; the
`progressInterval` ref is modelled by the `intervalActive` flag of `HoldRun`
below. -/
structure Session where
  state : AppState
  mode : AppMode
  wideImage : Option String
  macroImage : Option String
  isCapturing : Bool
  analysis : Option AnalysisResult
  currentStepIdx : Nat
  isBusy : Bool
  voiceDescription : Option String
  verificationFeedback : Option VerificationFeedback
  overrideHeld : Bool
  overrideProgress : ℚ
  deriving DecidableEq, Repr

/-- The initial hook values (`src/App.tsx`, lines 8–23). -/
def initSession : Session :=
  { state := AppState.HOME
    mode := AppMode.FIRST_AID
    wideImage := none
    macroImage := none
    isCapturing := false
    analysis := none
    currentStepIdx := 0
    isBusy := false
    voiceDescription := none
    verificationFeedback := none
    overrideHeld := false
    overrideProgress := 0 }

/-- `startAssessment` (`src/App.tsx`, lines 25–31). -/
def startAssessment (selectedMode : AppMode) (s : Session) : Session :=
  { s with
    mode := selectedMode
    wideImage := none
    macroImage := none
    voiceDescription := none
    state := AppState.INITIAL_CAPTURE }

/-- The `INITIAL_CAPTURE` branch of `handleCapture` (`src/App.tsx`,
lines 33–41). -/
def handleCaptureInitial (data : String) (s : Session) : Session :=
  if s.wideImage = none then
    { s with isCapturing := false, wideImage := some data }
  else
    { s with isCapturing := false, macroImage := some data, state := AppState.CAPTURE_COMPLETE }

/-- The `STEP_VALIDATION` branch of `handleCapture` (`src/App.tsx`,
lines 42–47) up to the `await`: `setIsCapturing(false); setIsBusy(true)`. -/
def handleCaptureVerifyStart (s : Session) : Session :=
  { s with isCapturing := false, isBusy := true }

/-- The `STEP_VALIDATION` branch of `handleCapture` after the awaited
`verifyStep` promise settles (`src/App.tsx`, lines 44–46).  If `verifyStep`
fulfilled, its result is installed and `isBusy` is cleared; if it rejected,
the remaining statements of the handler do not run, so the session is
unchanged (in particular `isBusy` keeps the value set before the `await`). -/
def handleCaptureVerifyResolve (o : VerifyOracleOutcome) (s : Session) : Session :=
  match verifyStep o with
  | Except.ok f => { s with verificationFeedback := some f, isBusy := false }
  | Except.error _ => s

/-- `triggerAnalysis` (`src/App.tsx`, lines 50–63) up to the `await`:
`setState(ANALYZING); setIsBusy(true)`. -/
def triggerAnalysisStart (s : Session) : Session :=
  { s with state := AppState.ANALYZING, isBusy := true }

/-- `triggerAnalysis` after the awaited `analyzeSituation` promise settles
(`src/App.tsx`, lines 53–62), as a function of the call's result: on success
the result is installed and the phase becomes `ANALYSIS_COMPLETE`; the `catch`
arm sets the phase to `HOME` (and nothing else); the `finally` arm clears
`isBusy` on both paths. -/
def triggerAnalysisResolve (r : Except String AnalysisResult) (s : Session) : Session :=
  match r with
  | Except.ok res =>
      { s with analysis := some res, state := AppState.ANALYSIS_COMPLETE, isBusy := false }
  | Except.error _ => { s with state := AppState.HOME, isBusy := false }

/-- `startGuidance` (`src/App.tsx`, lines 65–66): the part run synchronously. -/
def startGuidance (s : Session) : Session :=
  { s with state := AppState.PREPARING_INSTRUCTIONS }

/-- The `setTimeout` callback of `startGuidance` (`src/App.tsx`, lines 67–73):
enters `GUIDANCE` with step index `0`.  The spoken-prompt side effect does not
touch session state. -/
def startGuidanceTimeout (s : Session) : Session :=
  { s with state := AppState.GUIDANCE, currentStepIdx := 0 }

/-- `proceedNext` (`src/App.tsx`, lines 76–86).  The source reads
`analysis!.steps.length` through a non-null assertion; every call site is
rendered only when `analysis` is installed, so the `none` branch (which would
throw in TypeScript) is modelled as the identity.  Note that
`setVerificationFeedback(null)` is executed only on the non-last-step branch. -/
def proceedNext (s : Session) : Session :=
  match s.analysis with
  | none => s
  | some a =>
      if s.currentStepIdx < a.steps.length - 1 then
        { s with
          currentStepIdx := s.currentStepIdx + 1
          verificationFeedback := none
          state := AppState.GUIDANCE }
      else
        { s with state := AppState.COMPLETED }

/-- The context-image retake button (`src/App.tsx`, line 235):
`setWideImage(null); setState(INITIAL_CAPTURE)`. -/
def retakeWide (s : Session) : Session :=
  { s with wideImage := none, state := AppState.INITIAL_CAPTURE }

/-- The detail-image retake button (`src/App.tsx`, line 242):
`setMacroImage(null); setState(INITIAL_CAPTURE)`. -/
def retakeMacro (s : Session) : Session :=
  { s with macroImage := none, state := AppState.INITIAL_CAPTURE }

/-- The hold duration of the override gesture (`src/App.tsx`, line 93). -/
def OVERRIDE_DURATION : ℚ := 1500

/-- The progress value computed by the interval callback of
`handleOverrideStart` (`src/App.tsx`, line 97):
`Math.min((elapsed / duration) * 100, 100)`. -/
def overrideProgressAt (elapsed : ℚ) : ℚ :=
  min (elapsed / OVERRIDE_DURATION * 100) 100

/-- `handleOverrideStart` (`src/App.tsx`, lines 89–94): the part run before the
interval is scheduled. -/
def handleOverrideStart (s : Session) : Session :=
  { s with overrideHeld := true, overrideProgress := 0 }

/-- The body of the `progress >= 100` branch of the interval callback
(`src/App.tsx`, lines 99–104): `proceedNext()` followed by
`setOverrideHeld(false); setOverrideProgress(0)`. -/
def overrideFire (s : Session) : Session :=
  let t := proceedNext s
  { t with overrideHeld := false, overrideProgress := 0 }

/-- `handleOverrideEnd` (`src/App.tsx`, lines 108–115): clears the interval and
resets the hold state; nothing else is touched. -/
def handleOverrideEnd (s : Session) : Session :=
  { s with overrideHeld := false, overrideProgress := 0 }

/-- The state of one override hold: whether the `setInterval` handle is still
live, the session, and how many times `proceedNext` has been invoked by the
interval callback. -/
structure HoldRun where
  intervalActive : Bool
  session : Session
  fires : Nat

/-- One invocation of the interval callback of `handleOverrideStart`
(`src/App.tsx`, lines 95–105) at elapsed time `elapsed`: if the interval has
been cleared it does nothing; otherwise it stores the sampled progress and, if
progress reached 100, clears the interval, advances via `proceedNext`, and
resets the hold state. -/
def overrideTick (r : HoldRun) (elapsed : ℚ) : HoldRun :=
  if r.intervalActive then
    let p := overrideProgressAt elapsed
    let s1 := { r.session with overrideProgress := p }
    if 100 ≤ p then
      { intervalActive := false, session := overrideFire s1, fires := r.fires + 1 }
    else
      { r with session := s1 }
  else r

/-- A whole override hold: `handleOverrideStart` followed by the interval
callback at each of the sampled elapsed times `es`. -/
def overrideRun (s : Session) (es : List ℚ) : HoldRun :=
  es.foldl overrideTick { intervalActive := true, session := handleOverrideStart s, fires := 0 }

/-- The user-visible events of the `App` component, each corresponding to a
handler reachable from the rendered UI.  Oracle-dependent events carry the
outcome of the asynchronous call. -/
inductive Event
  | selectMode (m : AppMode)
  | goHome
  | captureInitial (img : String)
  | retakeContext
  | retakeDetail
  | analyze (r : Except String AnalysisResult)
  | deployInstructions
  | prepDone
  | snapToVerify
  | captureVerify (o : VerifyOracleOutcome)
  | retryCapture
  | confirmProceed
  | overrideComplete

/-- One step of the session state machine.  Each event applies only when its
triggering control is rendered (the guard mirrors the `state === ...`
conditions of `src/App.tsx` and the `disabled={isBusy}` attribute of the
capture button); otherwise the session is unchanged.  `goHome` covers every
`setState(AppState.HOME)` button (header close, escalation back, completed
finish). -/
def step (s : Session) (e : Event) : Session :=
  match e with
  | Event.selectMode m => if s.state = AppState.HOME then startAssessment m s else s
  | Event.goHome => { s with state := AppState.HOME }
  | Event.captureInitial img =>
      if s.state = AppState.INITIAL_CAPTURE ∧ s.isBusy = false then
        handleCaptureInitial img s
      else s
  | Event.retakeContext => if s.state = AppState.CAPTURE_COMPLETE then retakeWide s else s
  | Event.retakeDetail => if s.state = AppState.CAPTURE_COMPLETE then retakeMacro s else s
  | Event.analyze r =>
      if s.state = AppState.CAPTURE_COMPLETE then
        triggerAnalysisResolve r (triggerAnalysisStart s)
      else s
  | Event.deployInstructions =>
      if s.state = AppState.ANALYSIS_COMPLETE ∧ s.analysis.isSome then startGuidance s else s
  | Event.prepDone =>
      if s.state = AppState.PREPARING_INSTRUCTIONS then startGuidanceTimeout s else s
  | Event.snapToVerify =>
      if s.state = AppState.GUIDANCE ∧ s.analysis.isSome then
        { s with state := AppState.STEP_VALIDATION }
      else s
  | Event.captureVerify o =>
      if s.state = AppState.STEP_VALIDATION ∧ s.isBusy = false then
        handleCaptureVerifyResolve o (handleCaptureVerifyStart s)
      else s
  | Event.retryCapture =>
      if s.state = AppState.STEP_VALIDATION then { s with verificationFeedback := none } else s
  | Event.confirmProceed =>
      if s.state = AppState.STEP_VALIDATION ∧ s.verificationFeedback.isSome then
        proceedNext s
      else s
  | Event.overrideComplete =>
      if s.state = AppState.GUIDANCE ∧ s.analysis.isSome then overrideFire s else s

/-- Run a list of events from a session. -/
def runEvents (s : Session) (es : List Event) : Session :=
  es.foldl step s

/-- A session reachable from the initial hook values by some event sequence. -/
def Reachable (s : Session) : Prop :=
  ∃ es : List Event, s = runEvents initSession es

/-- The inductive invariant of the state machine: in `PREPARING_INSTRUCTIONS`
an analysis is installed, and in `GUIDANCE` / `STEP_VALIDATION` an analysis is
installed and the step index is below `max len 1` (so below `len` whenever the
plan is non-empty). -/
def SessionInv (s : Session) : Prop :=
  (s.state = AppState.PREPARING_INSTRUCTIONS → s.analysis.isSome = true) ∧
  ((s.state = AppState.GUIDANCE ∨ s.state = AppState.STEP_VALIDATION) →
    ∃ a, s.analysis = some a ∧ s.currentStepIdx < max a.steps.length 1)

theorem sessionInv_of_state (t : Session)
    (g1 : t.state ≠ AppState.PREPARING_INSTRUCTIONS)
    (g2 : t.state ≠ AppState.GUIDANCE)
    (g3 : t.state ≠ AppState.STEP_VALIDATION) : SessionInv t := by
  refine ⟨fun hp => absurd hp g1, fun hp => ?_⟩
  cases hp with
  | inl hp => exact absurd hp g2
  | inr hp => exact absurd hp g3

theorem sessionInv_of_eq (t u : Session) (hs : u.state = t.state)
    (ha : u.analysis = t.analysis) (hi : u.currentStepIdx = t.currentStepIdx)
    (h : SessionInv t) : SessionInv u := by
  obtain ⟨h1, h2⟩ := h
  constructor
  · intro hp
    rw [hs] at hp
    rw [ha]
    exact h1 hp
  · intro hp
    rw [hs] at hp
    rw [ha, hi]
    exact h2 hp

theorem proceedNext_inv (s : Session) (a : AnalysisResult) (ha : s.analysis = some a) :
    SessionInv (proceedNext s) := by
  have hdef : proceedNext s =
      if s.currentStepIdx < a.steps.length - 1 then
        { s with
          currentStepIdx := s.currentStepIdx + 1
          verificationFeedback := none
          state := AppState.GUIDANCE }
      else { s with state := AppState.COMPLETED } := by
    simp [proceedNext, ha]
  by_cases hlt : s.currentStepIdx < a.steps.length - 1
  · rw [hdef, if_pos hlt]
    refine ⟨fun hp => by simp at hp, fun _ => ⟨a, ha, ?_⟩⟩
    have hmax : max a.steps.length 1 = a.steps.length := max_eq_left (by omega)
    simp only [hmax]
    omega
  · rw [hdef, if_neg hlt]
    exact sessionInv_of_state _ (by simp) (by simp) (by simp)

theorem step_preserves_inv (s : Session) (e : Event) (h : SessionInv s) :
    SessionInv (step s e) := by
  obtain ⟨h1, h2⟩ := h
  cases e with
  | selectMode m =>
      by_cases hc : s.state = AppState.HOME
      · simp only [step]
        rw [if_pos hc]
        exact sessionInv_of_state _ (by simp [startAssessment]) (by simp [startAssessment])
          (by simp [startAssessment])
      · simp only [step]
        rw [if_neg hc]
        exact ⟨h1, h2⟩
  | goHome =>
      simp only [step]
      exact sessionInv_of_state _ (by simp) (by simp) (by simp)
  | captureInitial img =>
      by_cases hc : s.state = AppState.INITIAL_CAPTURE ∧ s.isBusy = false
      · simp only [step]
        rw [if_pos hc]
        by_cases hw : s.wideImage = none
        · exact sessionInv_of_state _ (by simp [handleCaptureInitial, hw, hc.1])
            (by simp [handleCaptureInitial, hw, hc.1]) (by simp [handleCaptureInitial, hw, hc.1])
        · exact sessionInv_of_state _ (by simp [handleCaptureInitial, hw])
            (by simp [handleCaptureInitial, hw]) (by simp [handleCaptureInitial, hw])
      · simp only [step]
        rw [if_neg hc]
        exact ⟨h1, h2⟩
  | retakeContext =>
      by_cases hc : s.state = AppState.CAPTURE_COMPLETE
      · simp only [step]
        rw [if_pos hc]
        exact sessionInv_of_state _ (by simp [retakeWide]) (by simp [retakeWide])
          (by simp [retakeWide])
      · simp only [step]
        rw [if_neg hc]
        exact ⟨h1, h2⟩
  | retakeDetail =>
      by_cases hc : s.state = AppState.CAPTURE_COMPLETE
      · simp only [step]
        rw [if_pos hc]
        exact sessionInv_of_state _ (by simp [retakeMacro]) (by simp [retakeMacro])
          (by simp [retakeMacro])
      · simp only [step]
        rw [if_neg hc]
        exact ⟨h1, h2⟩
  | analyze r =>
      by_cases hc : s.state = AppState.CAPTURE_COMPLETE
      · simp only [step]
        rw [if_pos hc]
        cases r with
        | ok res =>
            exact sessionInv_of_state _
              (by simp [triggerAnalysisResolve, triggerAnalysisStart])
              (by simp [triggerAnalysisResolve, triggerAnalysisStart])
              (by simp [triggerAnalysisResolve, triggerAnalysisStart])
        | error err =>
            exact sessionInv_of_state _
              (by simp [triggerAnalysisResolve, triggerAnalysisStart])
              (by simp [triggerAnalysisResolve, triggerAnalysisStart])
              (by simp [triggerAnalysisResolve, triggerAnalysisStart])
      · simp only [step]
        rw [if_neg hc]
        exact ⟨h1, h2⟩
  | deployInstructions =>
      by_cases hc : s.state = AppState.ANALYSIS_COMPLETE ∧ s.analysis.isSome
      · simp only [step]
        rw [if_pos hc]
        refine ⟨fun _ => ?_, fun hp => ?_⟩
        · simpa [startGuidance] using hc.2
        · exfalso
          simp [startGuidance] at hp
      · simp only [step]
        rw [if_neg hc]
        exact ⟨h1, h2⟩
  | prepDone =>
      by_cases hc : s.state = AppState.PREPARING_INSTRUCTIONS
      · obtain ⟨a, ha⟩ := Option.isSome_iff_exists.mp (h1 hc)
        simp only [step]
        rw [if_pos hc]
        refine ⟨fun hp => ?_, fun _ => ⟨a, ?_, ?_⟩⟩
        · exfalso
          simp [startGuidanceTimeout] at hp
        · simpa [startGuidanceTimeout] using ha
        · show (0 : Nat) < max a.steps.length 1
          exact lt_of_lt_of_le zero_lt_one (le_max_right _ _)
      · simp only [step]
        rw [if_neg hc]
        exact ⟨h1, h2⟩
  | snapToVerify =>
      by_cases hc : s.state = AppState.GUIDANCE ∧ s.analysis.isSome
      · obtain ⟨a, ha, hidx⟩ := h2 (Or.inl hc.1)
        simp only [step]
        rw [if_pos hc]
        exact ⟨fun hp => by simp at hp, fun _ => ⟨a, ha, hidx⟩⟩
      · simp only [step]
        rw [if_neg hc]
        exact ⟨h1, h2⟩
  | captureVerify o =>
      by_cases hc : s.state = AppState.STEP_VALIDATION ∧ s.isBusy = false
      · simp only [step]
        rw [if_pos hc]
        refine sessionInv_of_eq s _ ?_ ?_ ?_ ⟨h1, h2⟩ <;>
          cases o <;>
            simp [handleCaptureVerifyResolve, handleCaptureVerifyStart, verifyStep]
      · simp only [step]
        rw [if_neg hc]
        exact ⟨h1, h2⟩
  | retryCapture =>
      by_cases hc : s.state = AppState.STEP_VALIDATION
      · simp only [step]
        rw [if_pos hc]
        exact sessionInv_of_eq s _ rfl rfl rfl ⟨h1, h2⟩
      · simp only [step]
        rw [if_neg hc]
        exact ⟨h1, h2⟩
  | confirmProceed =>
      by_cases hc : s.state = AppState.STEP_VALIDATION ∧ s.verificationFeedback.isSome
      · obtain ⟨a, ha, _⟩ := h2 (Or.inr hc.1)
        simp only [step]
        rw [if_pos hc]
        exact proceedNext_inv s a ha
      · simp only [step]
        rw [if_neg hc]
        exact ⟨h1, h2⟩
  | overrideComplete =>
      by_cases hc : s.state = AppState.GUIDANCE ∧ s.analysis.isSome
      · obtain ⟨a, ha, _⟩ := h2 (Or.inl hc.1)
        simp only [step]
        rw [if_pos hc]
        exact sessionInv_of_eq (proceedNext s) _ (by simp [overrideFire])
          (by simp [overrideFire]) (by simp [overrideFire]) (proceedNext_inv s a ha)
      · simp only [step]
        rw [if_neg hc]
        exact ⟨h1, h2⟩

theorem runEvents_preserves_inv (es : List Event) (s : Session) (h : SessionInv s) :
    SessionInv (runEvents s es) := by
  induction es generalizing s with
  | nil => exact h
  | cons e es ih => exact ih (step s e) (step_preserves_inv s e h)

theorem initSession_inv : SessionInv initSession := by
  refine ⟨?_, ?_⟩ <;> simp [initSession, SessionInv]

theorem reachable_inv (s : Session) (h : Reachable s) : SessionInv s := by
  obtain ⟨es, rfl⟩ := h
  exact runEvents_preserves_inv es initSession initSession_inv

theorem overrideProgressAt_mono (e1 e2 : ℚ) (h : e1 ≤ e2) :
    overrideProgressAt e1 ≤ overrideProgressAt e2 := by
  unfold overrideProgressAt OVERRIDE_DURATION
  refine min_le_min ?_ le_rfl
  have h15 : (0 : ℚ) < 1500 := by norm_num
  have := (div_le_div_iff_of_pos_right h15).mpr h
  nlinarith

theorem overrideTick_inactive (r : HoldRun) (e : ℚ) (h : r.intervalActive = false) :
    overrideTick r e = r := by
  simp [overrideTick, h]

theorem foldl_overrideTick_inactive (es : List ℚ) (r : HoldRun)
    (h : r.intervalActive = false) : es.foldl overrideTick r = r := by
  induction es with
  | nil => rfl
  | cons e es ih =>
      rw [List.foldl_cons, overrideTick_inactive r e h]
      exact ih

theorem overrideTick_fired (r : HoldRun) (e : ℚ) (hact : r.intervalActive = true)
    (hp : 100 ≤ overrideProgressAt e) :
    overrideTick r e =
      { intervalActive := false
        session := overrideFire { r.session with overrideProgress := overrideProgressAt e }
        fires := r.fires + 1 } := by
  simp [overrideTick, hact, hp]

theorem overrideTick_below (r : HoldRun) (e : ℚ) (hact : r.intervalActive = true)
    (hp : ¬ 100 ≤ overrideProgressAt e) :
    overrideTick r e =
      { r with session := { r.session with overrideProgress := overrideProgressAt e } } := by
  simp [overrideTick, hact, hp]

theorem foldl_overrideTick_fires_le (es : List ℚ) (r : HoldRun)
    (h : r.intervalActive = true → r.fires = 0) (hle : r.fires ≤ 1) :
    (es.foldl overrideTick r).fires ≤ 1 := by
  induction es generalizing r with
  | nil => exact hle
  | cons e es ih =>
      rw [List.foldl_cons]
      by_cases hact : r.intervalActive = true
      · by_cases hp : 100 ≤ overrideProgressAt e
        · rw [overrideTick_fired r e hact hp,
            foldl_overrideTick_inactive es _ rfl]
          simp [h hact]
        · rw [overrideTick_below r e hact hp]
          exact ih _ (fun _ => h hact) hle
      · rw [overrideTick_inactive r e (by simpa using hact)]
        exact ih r h hle

theorem foldl_overrideTick_all_below (es : List ℚ) (r : HoldRun)
    (hall : ∀ e ∈ es, overrideProgressAt e < 100) :
    (es.foldl overrideTick r).fires = r.fires ∧
    (es.foldl overrideTick r).intervalActive = r.intervalActive ∧
    (es.foldl overrideTick r).session.state = r.session.state ∧
    (es.foldl overrideTick r).session.currentStepIdx = r.session.currentStepIdx ∧
    (es.foldl overrideTick r).session.verificationFeedback = r.session.verificationFeedback := by
  induction es generalizing r with
  | nil => exact ⟨rfl, rfl, rfl, rfl, rfl⟩
  | cons e es ih =>
      rw [List.foldl_cons]
      have he : overrideProgressAt e < 100 := hall e (List.mem_cons_self e es)
      have htail : ∀ x ∈ es, overrideProgressAt x < 100 :=
        fun x hx => hall x (List.mem_cons_of_mem e hx)
      by_cases hact : r.intervalActive = true
      · rw [overrideTick_below r e hact (not_le.mpr he)]
        exact ih _ htail
      · rw [overrideTick_inactive r e (by simpa using hact)]
        exact ih r htail

theorem foldl_overrideTick_reaches (es : List ℚ) (r : HoldRun)
    (hact : r.intervalActive = true) (h0 : r.fires = 0)
    (hex : ∃ e ∈ es, 100 ≤ overrideProgressAt e) :
    (es.foldl overrideTick r).fires = 1 := by
  induction es generalizing r with
  | nil => simp at hex
  | cons e es ih =>
      rw [List.foldl_cons]
      by_cases hp : 100 ≤ overrideProgressAt e
      · rw [overrideTick_fired r e hact hp,
          foldl_overrideTick_inactive es _ rfl]
        simp [h0]
      · rw [overrideTick_below r e hact hp]
        obtain ⟨x, hx, hge⟩ := hex
        rcases List.mem_cons.mp hx with hxe | hxs
        · exact absurd (hxe ▸ hge) hp
        · exact ih _ hact h0 ⟨x, hxs, hge⟩

/-- A single guidance step used in concrete scenarios. -/
def sampleStep : GuidanceStep :=
  { id := 1
    title := "Inspect the connector"
    instruction := "Check that the wire is seated"
    duration := none
    materials := none
    warnings := none
    checkpoints := none
    audioPrompt := "Check the wire"
    arOverlayType := "arrow" }

/-- A one-step plan. -/
def onePlan : AnalysisResult :=
  { category := "Loose wire"
    confidence := 90
    reasoning := "visible gap"
    severity := "LOW"
    uncertainties := none
    isSafeToProceed := true
    steps := [sampleStep] }

/-- A two-step plan. -/
def twoPlan : AnalysisResult :=
  { category := "Loose wire"
    confidence := 90
    reasoning := "visible gap"
    severity := "LOW"
    uncertainties := none
    isSafeToProceed := true
    steps := [sampleStep, { sampleStep with id := 2 }] }

/-- A plan with zero steps: the well-formed JSON `{"steps": [], ...}` parses to
such a value and `analyzeSituation` installs it unchecked. -/
def emptyPlan : AnalysisResult :=
  { category := "Unknown"
    confidence := 0
    reasoning := ""
    severity := "LOW"
    uncertainties := none
    isSafeToProceed := true
    steps := [] }

/-- A session in `STEP_VALIDATION` on the last (only) step of a one-step plan,
with a pending verification feedback. -/
def lastStepSession : Session :=
  { initSession with
    state := AppState.STEP_VALIDATION
    analysis := some onePlan
    verificationFeedback := some { success := true, feedback := "Looks complete" } }

/-- A session in `CAPTURE_COMPLETE` with both setup images present. -/
def captureCompleteSession : Session :=
  { initSession with
    state := AppState.CAPTURE_COMPLETE
    wideImage := some "wide-jpeg"
    macroImage := some "macro-jpeg" }

/-- A session in `STEP_VALIDATION` awaiting a verification capture. -/
def validationSession : Session :=
  { initSession with
    state := AppState.STEP_VALIDATION
    analysis := some onePlan }

/-- C1 counterexample: on the last step, `proceedNext` transitions to
`COMPLETED` but does not clear the pending `VerificationFeedback` — the
`setVerificationFeedback(null)` call sits only on the non-last-step branch of
`src/App.tsx`, lines 76–86.  The claim's "clears the pending
VerificationFeedback and advances" is therefore false on the last step. -/
theorem c1_counterexample_last_step_keeps_feedback :
    (proceedNext lastStepSession).state = AppState.COMPLETED ∧
    (proceedNext lastStepSession).verificationFeedback ≠ none := by
  refine ⟨rfl, ?_⟩
  decide

/-- C1 (amended): in `STEP_VALIDATION` with a pending feedback, confirm-and-
proceed advances: below the last step it increments `activeStepIndex`, clears
the feedback and returns to `GUIDANCE`; on the last step it transitions to
`COMPLETED` (never back to `GUIDANCE`) with the step index unchanged, but the
pending feedback is left in place rather than cleared. -/
theorem c1_amended_proceed_advances (s : Session) (a : AnalysisResult)
    (_hst : s.state = AppState.STEP_VALIDATION)
    (ha : s.analysis = some a)
    (_hfb : s.verificationFeedback.isSome = true) :
    (s.currentStepIdx < a.steps.length - 1 →
      (proceedNext s).currentStepIdx = s.currentStepIdx + 1 ∧
      (proceedNext s).state = AppState.GUIDANCE ∧
      (proceedNext s).verificationFeedback = none) ∧
    (¬ s.currentStepIdx < a.steps.length - 1 →
      (proceedNext s).state = AppState.COMPLETED ∧
      (proceedNext s).currentStepIdx = s.currentStepIdx ∧
      (proceedNext s).verificationFeedback = s.verificationFeedback) := by
  constructor <;> intro hlt <;> simp [proceedNext, ha, hlt]

/-- Witness for C1 (amended) at the one-step session. -/
theorem c1_amended_witness :
    (proceedNext lastStepSession).state = AppState.COMPLETED ∧
    (proceedNext lastStepSession).currentStepIdx = 0 := by
  have h := c1_amended_proceed_advances lastStepSession onePlan rfl rfl rfl
  have h2 := h.2 (by decide)
  exact ⟨h2.1, h2.2.1⟩

/-- C2: completing the override hold runs exactly the advance routine
`proceedNext` (the interval callback of `src/App.tsx`, line 101, calls the
same function as the Confirm & Proceed button, line 454), so the resulting
phase, step index, installed plan and pending feedback are identical on the
two paths; the override path additionally resets only its own hold state. -/
theorem c2_override_and_proceed_agree (s : Session) :
    (overrideFire s).state = (proceedNext s).state ∧
    (overrideFire s).currentStepIdx = (proceedNext s).currentStepIdx ∧
    (overrideFire s).analysis = (proceedNext s).analysis ∧
    (overrideFire s).verificationFeedback = (proceedNext s).verificationFeedback :=
  ⟨rfl, rfl, rfl, rfl⟩

/-- C3 counterexample: when the analysis call fails, `triggerAnalysis`
(`src/App.tsx`, lines 50–63) returns to `HOME` with `busy` cleared, but it
does NOT clear the captured images: the catch arm only sets the phase.  The
claim's "the captured context and detail images are cleared" is false. -/
theorem c3_counterexample_images_retained :
    (triggerAnalysisResolve (Except.error "Failed to parse AI response")
      (triggerAnalysisStart captureCompleteSession)).state = AppState.HOME ∧
    (triggerAnalysisResolve (Except.error "Failed to parse AI response")
      (triggerAnalysisStart captureCompleteSession)).isBusy = false ∧
    (triggerAnalysisResolve (Except.error "Failed to parse AI response")
      (triggerAnalysisStart captureCompleteSession)).wideImage = some "wide-jpeg" ∧
    (triggerAnalysisResolve (Except.error "Failed to parse AI response")
      (triggerAnalysisStart captureCompleteSession)).macroImage = some "macro-jpeg" := by
  refine ⟨rfl, rfl, rfl, rfl⟩

/-- C3 (amended): on any failure of the analysis call (transport or parse
error), the session returns to `HOME` with `busy` cleared and the `analysis`
field keeping its prior value (no partial plan installed), but the captured
context and detail images are retained, not cleared; they are only reset by
the next mode selection. -/
theorem c3_amended_failure_returns_home (s : Session) (err : String) :
    (triggerAnalysisResolve (Except.error err) (triggerAnalysisStart s)).state =
      AppState.HOME ∧
    (triggerAnalysisResolve (Except.error err) (triggerAnalysisStart s)).isBusy = false ∧
    (triggerAnalysisResolve (Except.error err) (triggerAnalysisStart s)).analysis =
      s.analysis ∧
    (triggerAnalysisResolve (Except.error err) (triggerAnalysisStart s)).wideImage =
      s.wideImage ∧
    (triggerAnalysisResolve (Except.error err) (triggerAnalysisStart s)).macroImage =
      s.macroImage ∧
    (∀ m : AppMode, (startAssessment m s).wideImage = none ∧
      (startAssessment m s).macroImage = none) ∧
    (∀ t, analyzeSituation (AnalysisOracleOutcome.malformed t) =
      Except.error "Failed to parse AI response") ∧
    analyzeSituation AnalysisOracleOutcome.transportError = Except.error "transport error" :=
  ⟨rfl, rfl, rfl, rfl, rfl, fun _ => ⟨rfl, rfl⟩, fun _ => rfl, rfl⟩

/-- C4 counterexample: in `verifyStep` (`src/services/geminiService.ts`,
lines 82–104) the `await ai.models.generateContent` sits outside the `try`
block, so a transport rejection propagates to the caller instead of producing
the fail-open fallback feedback.  The claim's "never propagates an error to
the caller" is false. -/
theorem c4_counterexample_transport_error_propagates :
    verifyStep VerifyOracleOutcome.transportError = Except.error () := rfl

/-- C4 (amended): `verifyStep` returns the fail-open fallback
`{success: true, message: "Unable to verify, but proceeding safely."}` only on
a JSON parse failure, and returns the parsed value otherwise; in both fulfilled
cases the session phase stays `STEP_VALIDATION` pending user confirmation.  A
transport rejection, by contrast, propagates out of `verifyStep` and out of
`handleCapture`, leaving the session phase unchanged but without any feedback
installed. -/
theorem c4_amended_fail_open_on_parse_only :
    (∀ t, verifyStep (VerifyOracleOutcome.malformed t) =
      Except.ok { success := true, feedback := "Unable to verify, but proceeding safely." }) ∧
    (∀ b f, verifyStep (VerifyOracleOutcome.parsed b f) =
      Except.ok { success := b, feedback := f }) ∧
    (∀ o s, (handleCaptureVerifyResolve o (handleCaptureVerifyStart s)).state = s.state) ∧
    (∀ s, (handleCaptureVerifyResolve VerifyOracleOutcome.transportError
      (handleCaptureVerifyStart s)).verificationFeedback = s.verificationFeedback) ∧
    verifyStep VerifyOracleOutcome.transportError = Except.error () := by
  refine ⟨fun _ => rfl, fun _ _ => rfl, fun o s => ?_, fun s => rfl, rfl⟩
  cases o <;> rfl

/-- C5 counterexample: when the verification call rejects in flight, the
statements of `handleCapture` after the `await` (`src/App.tsx`, lines 45–46)
never run, so `busy` remains `true` after the request has failed — the
claim's "busy is false immediately after it resolves, whether the call
succeeds or fails" is false for a verification transport error. -/
theorem c5_counterexample_busy_stuck_on_transport_error :
    (handleCaptureVerifyResolve VerifyOracleOutcome.transportError
      (handleCaptureVerifyStart validationSession)).isBusy = true ∧
    (handleCaptureVerifyResolve VerifyOracleOutcome.transportError
      (handleCaptureVerifyStart validationSession)).verificationFeedback = none := by
  refine ⟨rfl, rfl⟩

/-- C5 (amended): `busy` is set for the full in-flight window of both calls.
For analysis it is cleared on every resolution (the `finally` arm), success or
failure.  For verification it is cleared whenever `verifyStep` fulfills
(parsed response or parse-failure fallback); but when the verification
transport rejects, `busy` remains `true` after the failure (and, the capture
trigger being disabled while `busy`, no second request can start). -/
theorem c5_amended_busy_lifecycle (s : Session) :
    (triggerAnalysisStart s).isBusy = true ∧
    (∀ r, (triggerAnalysisResolve r (triggerAnalysisStart s)).isBusy = false) ∧
    (handleCaptureVerifyStart s).isBusy = true ∧
    (∀ b f, (handleCaptureVerifyResolve (VerifyOracleOutcome.parsed b f)
      (handleCaptureVerifyStart s)).isBusy = false) ∧
    (∀ t, (handleCaptureVerifyResolve (VerifyOracleOutcome.malformed t)
      (handleCaptureVerifyStart s)).isBusy = false) ∧
    (handleCaptureVerifyResolve VerifyOracleOutcome.transportError
      (handleCaptureVerifyStart s)).isBusy = true ∧
    (∀ o, s.isBusy = true → step s (Event.captureVerify o) = s) := by
  refine ⟨rfl, fun r => ?_, rfl, fun b f => rfl, fun t => rfl, rfl, fun o hb => ?_⟩
  · cases r <;> rfl
  · simp only [step]
    rw [if_neg]
    intro hcon
    rw [hb] at hcon
    exact absurd hcon.2 (by decide)

/-- C6 counterexample: the code installs any parseable analysis response
unchecked, so a zero-step plan reaches `GUIDANCE` with
`activeStepIndex = 0 = len(plan.steps)`, violating
`activeStepIndex < len(plan.steps)`. -/
theorem c6_counterexample_empty_plan_reaches_guidance :
    (runEvents initSession
      [Event.selectMode AppMode.ROBOTICS, Event.captureInitial "wide-jpeg",
       Event.captureInitial "macro-jpeg", Event.analyze (Except.ok emptyPlan),
       Event.deployInstructions, Event.prepDone]).state = AppState.GUIDANCE ∧
    (runEvents initSession
      [Event.selectMode AppMode.ROBOTICS, Event.captureInitial "wide-jpeg",
       Event.captureInitial "macro-jpeg", Event.analyze (Except.ok emptyPlan),
       Event.deployInstructions, Event.prepDone]).analysis = some emptyPlan ∧
    ¬ (runEvents initSession
      [Event.selectMode AppMode.ROBOTICS, Event.captureInitial "wide-jpeg",
       Event.captureInitial "macro-jpeg", Event.analyze (Except.ok emptyPlan),
       Event.deployInstructions, Event.prepDone]).currentStepIdx <
        emptyPlan.steps.length := by
  refine ⟨rfl, rfl, ?_⟩
  decide

/-- C6 (amended): every reachable session in phase `GUIDANCE` or
`STEP_VALIDATION` has a plan installed and satisfies
`activeStepIndex < max(len(plan.steps), 1)` — hence
`0 ≤ activeStepIndex < len(plan.steps)` whenever the installed plan is
non-empty.  The code does not enforce non-emptiness, and a zero-step plan
reaches `GUIDANCE` with index `0` equal to the length. -/
theorem c6_amended_step_index_invariant (s : Session) (h : Reachable s)
    (hp : s.state = AppState.GUIDANCE ∨ s.state = AppState.STEP_VALIDATION) :
    ∃ a, s.analysis = some a ∧ s.currentStepIdx < max a.steps.length 1 :=
  (reachable_inv s h).2 hp

/-- Witness for C6 (amended) at a concrete run installing a one-step plan. -/
theorem c6_amended_witness :
    ∃ a, (runEvents initSession
      [Event.selectMode AppMode.ROBOTICS, Event.captureInitial "wide-jpeg",
       Event.captureInitial "macro-jpeg", Event.analyze (Except.ok onePlan),
       Event.deployInstructions, Event.prepDone]).analysis = some a ∧
      (runEvents initSession
        [Event.selectMode AppMode.ROBOTICS, Event.captureInitial "wide-jpeg",
         Event.captureInitial "macro-jpeg", Event.analyze (Except.ok onePlan),
         Event.deployInstructions, Event.prepDone]).currentStepIdx <
          max a.steps.length 1 :=
  c6_amended_step_index_invariant _ ⟨_, rfl⟩ (Or.inl (by decide))

/-- C7 counterexample: `analyzeSituation` accepts any parseable JSON value
unchecked — the `as AnalysisResult` cast performs no runtime validation — so a
response missing every required field (the empty object) is returned as a
success rather than rejected.  The claim's "any structural mismatch … is
rejected as an AnalysisFailed error" is false. -/
theorem c7_counterexample_shapeless_response_accepted :
    analyzeSituation (AnalysisOracleOutcome.parsed (Json.obj [])) =
      Except.ok (Json.obj []) ∧
    (Json.obj []).getField "steps" = none ∧
    (Json.obj []).getField "title" = none :=
  ⟨rfl, rfl, rfl⟩

/-- C7 (amended): the analyze operation rejects exactly the responses whose
text fails to `JSON.parse` (and propagates a transport rejection); every
parsed JSON value — of any shape, with any fields missing — is accepted and
returned unchanged, and an absent response text is accepted as the empty
object.  Shape constraints are only requested from the oracle via the request's
`responseSchema`; nothing is validated locally. -/
theorem c7_amended_parse_failure_only_validation :
    (∀ v, analyzeSituation (AnalysisOracleOutcome.parsed v) = Except.ok v) ∧
    (∀ t, analyzeSituation (AnalysisOracleOutcome.malformed t) =
      Except.error "Failed to parse AI response") ∧
    analyzeSituation AnalysisOracleOutcome.noText = Except.ok (Json.obj []) ∧
    analyzeSituation AnalysisOracleOutcome.transportError =
      Except.error "transport error" :=
  ⟨fun _ => rfl, fun _ => rfl, rfl, rfl⟩

/-- C8: the override hold's sampled progress is monotonically non-decreasing
in elapsed time and starts at 0; cancelling resets progress to exactly 0 and
changes nothing else in the session; over any sampling sequence the interval
fires the advance at most once, exactly once when some sample reaches full
progress, and never when no sample does (in which case phase, step index and
feedback are untouched). -/
theorem c8_override_hold_spec :
    (∀ e1 e2 : ℚ, e1 ≤ e2 → overrideProgressAt e1 ≤ overrideProgressAt e2) ∧
    (∀ s, (handleOverrideStart s).overrideProgress = 0) ∧
    (∀ s, (handleOverrideEnd s).overrideProgress = 0 ∧
      (handleOverrideEnd s).state = s.state ∧
      (handleOverrideEnd s).currentStepIdx = s.currentStepIdx ∧
      (handleOverrideEnd s).verificationFeedback = s.verificationFeedback ∧
      (handleOverrideEnd s).analysis = s.analysis ∧
      (handleOverrideEnd s).wideImage = s.wideImage ∧
      (handleOverrideEnd s).macroImage = s.macroImage ∧
      (handleOverrideEnd s).isBusy = s.isBusy) ∧
    (∀ s es, (overrideRun s es).fires ≤ 1) ∧
    (∀ s es, (∀ e ∈ es, overrideProgressAt e < 100) →
      (overrideRun s es).fires = 0 ∧
      (overrideRun s es).session.state = s.state ∧
      (overrideRun s es).session.currentStepIdx = s.currentStepIdx ∧
      (overrideRun s es).session.verificationFeedback = s.verificationFeedback) ∧
    (∀ s es, (∃ e ∈ es, 100 ≤ overrideProgressAt e) → (overrideRun s es).fires = 1) := by
  refine ⟨overrideProgressAt_mono, fun s => rfl,
    fun s => ⟨rfl, rfl, rfl, rfl, rfl, rfl, rfl, rfl⟩, fun s es => ?_, fun s es hall => ?_,
    fun s es hex => ?_⟩
  · exact foldl_overrideTick_fires_le es _ (fun _ => rfl) (by norm_num)
  · obtain ⟨hf, _, hs, hi, hv⟩ := foldl_overrideTick_all_below es
      { intervalActive := true, session := handleOverrideStart s, fires := 0 } hall
    exact ⟨hf, hs, hi, hv⟩
  · exact foldl_overrideTick_reaches es _ rfl rfl hex

/-- Witness for C8 at concrete sample sequences. -/
theorem c8_override_hold_witness :
    overrideProgressAt 100 ≤ overrideProgressAt 200 ∧
    (overrideRun initSession [16, 1600]).fires = 1 ∧
    (overrideRun initSession [16, 32]).fires = 0 := by
  refine ⟨c8_override_hold_spec.1 100 200 (by norm_num), ?_, ?_⟩
  · refine c8_override_hold_spec.2.2.2.2.2 initSession [16, 1600] ⟨1600, ?_, ?_⟩
    · simp
    · norm_num [overrideProgressAt, OVERRIDE_DURATION]
  · refine (c8_override_hold_spec.2.2.2.2.1 initSession [16, 32] ?_).1
    intro e he
    rcases List.mem_cons.mp he with rfl | he2
    · norm_num [overrideProgressAt, OVERRIDE_DURATION]
    · rcases List.mem_cons.mp he2 with rfl | he3
      · norm_num [overrideProgressAt, OVERRIDE_DURATION]
      · simp at he3

/-- C9: from `CAPTURE_COMPLETE` with both images present, each retake button
clears only its own slot and returns to `INITIAL_CAPTURE`, leaving the other
image (and the rest of the session) unchanged. -/
theorem c9_retake_clears_only_retaken_slot (s : Session)
    (_hst : s.state = AppState.CAPTURE_COMPLETE)
    (_hw : s.wideImage.isSome = true) (_hm : s.macroImage.isSome = true) :
    ((retakeWide s).state = AppState.INITIAL_CAPTURE ∧
      (retakeWide s).wideImage = none ∧
      (retakeWide s).macroImage = s.macroImage ∧
      (retakeWide s).analysis = s.analysis ∧
      (retakeWide s).mode = s.mode) ∧
    ((retakeMacro s).state = AppState.INITIAL_CAPTURE ∧
      (retakeMacro s).macroImage = none ∧
      (retakeMacro s).wideImage = s.wideImage ∧
      (retakeMacro s).analysis = s.analysis ∧
      (retakeMacro s).mode = s.mode) :=
  ⟨⟨rfl, rfl, rfl, rfl, rfl⟩, ⟨rfl, rfl, rfl, rfl, rfl⟩⟩

/-- Witness for C9 at the concrete capture-complete session. -/
theorem c9_retake_witness :
    (retakeWide captureCompleteSession).macroImage = some "macro-jpeg" ∧
    (retakeMacro captureCompleteSession).wideImage = some "wide-jpeg" := by
  have h := c9_retake_clears_only_retaken_slot captureCompleteSession rfl rfl rfl
  exact ⟨h.1.2.2.1.trans rfl, h.2.2.2.1.trans rfl⟩

/-- C10: the outcome of confirm-and-proceed (phase, step index, and installed
plan) is identical whether the pending feedback has `success = true` or
`success = false`: `proceedNext` never reads the feedback's success flag. -/
theorem c10_advance_independent_of_feedback_success (s : Session)
    (_hst : s.state = AppState.STEP_VALIDATION) (m1 m2 : String) :
    (proceedNext { s with
        verificationFeedback := some { success := true, feedback := m1 } }).state =
      (proceedNext { s with
        verificationFeedback := some { success := false, feedback := m2 } }).state ∧
    (proceedNext { s with
        verificationFeedback := some { success := true, feedback := m1 } }).currentStepIdx =
      (proceedNext { s with
        verificationFeedback := some { success := false, feedback := m2 } }).currentStepIdx ∧
    (proceedNext { s with
        verificationFeedback := some { success := true, feedback := m1 } }).analysis =
      (proceedNext { s with
        verificationFeedback := some { success := false, feedback := m2 } }).analysis := by
  cases hA : s.analysis with
  | none => simp [proceedNext, hA]
  | some a =>
      by_cases hlt : s.currentStepIdx < a.steps.length - 1 <;>
        simp [proceedNext, hA, hlt]

/-- Witness for C10 at the concrete one-step validation session. -/
theorem c10_witness :
    (proceedNext { validationSession with
        verificationFeedback := some { success := true, feedback := "done" } }).state =
      (proceedNext { validationSession with
        verificationFeedback := some { success := false, feedback := "redo" } }).state :=
  (c10_advance_independent_of_feedback_success validationSession rfl "done" "redo").1
